import Mathlib

/-!
Verification of the order-status notifier (repository `paidabai/vin`).

This file gives a shallow embedding, in Lean 4, of the pure core of the
repository: the field-normalization primitives (`pick`, `formatCurrency`,
`buildOrderSummary` from `src/app/api/order/summary/route.ts`, duplicated in
`next.config.ts`, plus the simplified variants in `src/app/page.tsx`) and the
notification-decision policy (the two `main` scripts in `next.config.ts`).

Modelling conventions:
* JavaScript's loosely-typed primitive values are the inductive `JsVal`
  (`undefined`, `null`, strings, and numbers).  The upstream record fields
  consumed by the normalizer are primitive, so `JsVal` has no object
  constructor; the one nested object (`skuDetail`) gets its own type.
* JavaScript numbers are modelled as exact decimals `JNum` (an integer
  mantissa over a power-of-ten denominator), with rational semantics
  `JNum.val`.  Every number this program manipulates — JSON numbers and the
  results of `Number(string)` — is such a decimal.  The ECMAScript builtins
  used by the code (`Number(string)`, `String.prototype.trim`,
  `Number.prototype.toLocaleString`, `JSON.parse` on the configuration
  sub-object) are modelled as executable Lean functions on this
  representation, restricted to plain decimal notation (no exponent or hex
  forms, which never occur in the data handled by this program).
* Reads of the wall clock are modelled by passing the observed
  Asia/Shanghai hour (for `getBeijingHour`, which then applies the
  modelled Intl hour formatter and `Number` conversion to it, as the
  source does) or the formatted request time as an explicit argument,
  making every function a pure function of its inputs.
* All functions are total, which embeds the source's "never throws"
  behaviour: every catch-handler in the modelled code returns a value.
-/

/-- An exact decimal number `m / 10 ^ e`, the model of the JavaScript
numbers handled by this program.  The representation is not required to be
reduced; numeric comparisons go through the value, structural equality is
only used where the source compares nothing. -/
structure JNum where
  m : ℤ
  e : ℕ
deriving DecidableEq

namespace JNum

/-- Rational value of a decimal. -/
def val (q : JNum) : ℚ := (q.m : ℚ) / 10 ^ q.e

/-- The decimal with integer value `n`. -/
def ofInt (n : ℤ) : JNum := ⟨n, 0⟩

/-- Numeric (value) equality of decimals, by cross-multiplication. -/
def valEq (a b : JNum) : Prop := a.m * 10 ^ b.e = b.m * 10 ^ a.e

instance (a b : JNum) : Decidable (valEq a b) := inferInstanceAs (Decidable (_ = _))

/-- Strict positivity of a decimal (the JavaScript comparison `x > 0`). -/
def isPos (q : JNum) : Prop := 0 < q.m

instance (q : JNum) : Decidable (isPos q) := inferInstanceAs (Decidable (_ < _))

/-- Negation. -/
def neg (q : JNum) : JNum := ⟨-q.m, q.e⟩

/-- Whether the decimal's value is an integer. -/
def isInt (q : JNum) : Prop := (10 : ℤ) ^ q.e ∣ q.m

instance (q : JNum) : Decidable (isInt q) := Int.decidableDvd _ _

/-- The integer value of an integral decimal (`0` is irrelevant junk on
non-integral input). -/
def toInt (q : JNum) : ℤ := Int.ediv q.m (10 ^ q.e)

/-- The ECMAScript remainder `q % n` for a natural modulus `n`:
`q - n * trunc (q / n)`, encoded exactly on the decimal representation. -/
def modNat (q : JNum) (n : ℕ) : JNum :=
  ⟨q.m - (n : ℤ) * Int.tdiv q.m ((10 : ℤ) ^ q.e * n) * 10 ^ q.e, q.e⟩

end JNum

/-- A loosely-typed JavaScript primitive value, as stored in the upstream
order record's fields: `undefined` (also standing for an absent key, since
reading an absent key yields `undefined`), `null`, a string, or a number. -/
inductive JsVal where
  | undefined : JsVal
  | null : JsVal
  | str : String → JsVal
  | num : JNum → JsVal
deriving DecidableEq

/-- JavaScript truthiness on the modelled values: `undefined` and `null` are
falsy, a string is truthy iff non-empty, a number is truthy iff non-zero
(there is no `NaN` constructor in the model). -/
def jsTruthy : JsVal → Bool
  | .undefined => false
  | .null => false
  | .str s => s ≠ ""
  | .num q => q.m ≠ 0

/-- Whitespace test used by the model of `String.prototype.trim`. -/
def isWs (c : Char) : Bool :=
  c = ' ' ∨ c = '\t' ∨ c = '\n' ∨ c = '\r'

/-- Strip leading and trailing whitespace from a character list. -/
def trimChars (cs : List Char) : List Char :=
  ((cs.reverse.dropWhile isWs).reverse).dropWhile isWs

/-- Model of the ECMAScript builtin `String.prototype.trim`. -/
def jsTrim (s : String) : String :=
  String.mk (trimChars s.data)

/-- Decimal digit test on characters. -/
def isDigitCh (c : Char) : Bool :=
  '0' ≤ c ∧ c ≤ '9'

/-- Numeric value of a decimal digit character. -/
def digitVal (c : Char) : Nat :=
  c.toNat - 48

/-- The character for a decimal digit (`digitCh 3 = '3'`). -/
def digitCh (n : Nat) : Char :=
  Char.ofNat (48 + n)

/-- Value of a most-significant-first digit list, accumulated left to right. -/
def digitsVal (cs : List Char) : Nat :=
  cs.foldl (fun a c => 10 * a + digitVal c) 0

/-- Decimal digits (most significant first) of a natural number, with an
explicit fuel argument so that the definition is structural and reduces in
the kernel. -/
def natDigitsF : Nat → Nat → List Char
  | 0, _ => []
  | fuel + 1, n =>
    if n < 10 then [digitCh n]
    else natDigitsF fuel (n / 10) ++ [digitCh (n % 10)]

/-- Decimal digits (most significant first) of a natural number. -/
def natDigits (n : Nat) : List Char :=
  natDigitsF (n + 1) n

/-- Split a character list at the first non-digit. -/
def spanDigits : List Char → (List Char × List Char)
  | [] => ([], [])
  | c :: cs =>
    if isDigitCh c then
      let p := spanDigits cs
      (c :: p.1, p.2)
    else ([], c :: cs)

/-- Parse an unsigned decimal numeral `digits [ '.' digits ]` from the start
of a character list, returning its decimal value and the unconsumed suffix.
Mirrors the decimal part of the ECMAScript numeric grammar (exponents and
hex forms are outside the model). -/
def parseNumAbs (cs : List Char) : Option (JNum × List Char) :=
  match spanDigits cs with
  | ([], _) => none
  | (ds, rest) =>
    match rest with
    | '.' :: rest2 =>
      match spanDigits rest2 with
      | ([], _) => none
      | (fs, rest3) => some (⟨digitsVal (ds ++ fs), fs.length⟩, rest3)
    | _ => some (⟨digitsVal ds, 0⟩, rest)

/-- Parse a full (entirely consumed) signed decimal numeral, allowing the
forms `d+`, `d+.d+`, `.d+` and an optional leading sign. -/
def parseSignedAll (cs : List Char) : Option JNum :=
  let core : List Char → Option JNum := fun l =>
    match l with
    | '.' :: rest =>
      match spanDigits rest with
      | ([], _) => none
      | (fs, rest2) =>
        if rest2 = [] then some ⟨digitsVal fs, fs.length⟩ else none
    | _ =>
      match parseNumAbs l with
      | some (q, []) => some q
      | _ => none
  match cs with
  | '-' :: rest => (core rest).map JNum.neg
  | '+' :: rest => core rest
  | _ => core cs

/-- Model of the ECMAScript builtin `Number(string)`: trim whitespace, map
the empty string to `0`, otherwise parse a plain decimal numeral; `none`
stands for `NaN`. -/
def parseNumber (s : String) : Option JNum :=
  let t := trimChars s.data
  if t = [] then some ⟨0, 0⟩ else parseSignedAll t

/-- Model of the ECMAScript `ToNumber` conversion on the modelled values
(`none` stands for `NaN`). -/
def jsNumber : JsVal → Option JNum
  | .undefined => none
  | .null => some ⟨0, 0⟩
  | .str s => parseNumber s
  | .num q => some q

/-- Drop trailing fractional zeros from a decimal representation (fuel is
the exponent, so the recursion is structural). -/
def canonF : Nat → ℤ → Nat → (ℤ × Nat)
  | 0, m, e => (m, e)
  | fuel + 1, m, e =>
    if e = 0 then (m, 0)
    else if Int.emod m 10 = 0 then canonF fuel (Int.ediv m 10) (e - 1)
    else (m, e)

/-- Plain decimal notation of a decimal number: sign, integer digits, and
(for a nonzero exponent) a dot and the fraction digits.  `canon = true`
first drops trailing fractional zeros, matching the canonical ECMAScript
number-to-string conversion. -/
def decCharsRaw (m : ℤ) (e : ℕ) : List Char :=
  let md := natDigits m.natAbs
  let sign : List Char := if m < 0 then ['-'] else []
  if e = 0 then sign ++ md
  else
    let pad := List.replicate (e + 1 - md.length) '0' ++ md
    sign ++ pad.take (pad.length - e) ++ '.' :: pad.drop (pad.length - e)

/-- Model of the ECMAScript number-to-string conversion (canonical form,
without trailing fractional zeros). -/
def numToString (q : JNum) : String :=
  let c := canonF q.e q.m q.e
  String.mk (decCharsRaw c.1 c.2)

/-- Model of the ECMAScript `ToString` conversion on the modelled values, as
used by template-literal interpolation. -/
def jsToString : JsVal → String
  | .undefined => "undefined"
  | .null => "null"
  | .str s => s
  | .num q => numToString q

/-- Function `jsOrElse v d` embeds the JavaScript idiom `v || d` followed by string
interpolation: the string form of `v` when `v` is truthy, else `d`. -/
def jsOrElse (v : JsVal) (d : String) : String :=
  if jsTruthy v then jsToString v else d

/-- Function `jsNullish v d` embeds the JavaScript nullish coalescing `v ?? d`. -/
def jsNullish (v : JsVal) (d : JsVal) : JsVal :=
  if v = .null ∨ v = .undefined then d else v

/-- Function `pick` from `route.ts` lines 22–27 (duplicated in `next.config.ts` lines
261–266 and 478–483): return the first candidate that is not `null`, not
`undefined` and not the empty string; if none qualifies return `"--"`. -/
def pick : List JsVal → JsVal
  | [] => .str "--"
  | v :: rest =>
    if v = .null ∨ v = .undefined ∨ v = .str "" then pick rest else v

/-- Hundredths obtained by rounding a non-negative decimal half away from
zero, as the `Intl` formatter does with two fraction digits:
`⌊q * 100 + 1/2⌋ = (m * 200 + 10^e) / (2 * 10^e)` rounding down. -/
def halfUpCents (m : ℤ) (e : ℕ) : ℕ :=
  (Int.fdiv (m * 200 + 10 ^ e) (2 * 10 ^ e)).toNat

/-- Insert a `,` after every third character of a reversed digit list. -/
def group3 : List Char → List Char
  | a :: b :: c :: d :: rest => a :: b :: c :: ',' :: group3 (d :: rest)
  | l => l

/-- Thousands grouping of a most-significant-first digit list. -/
def groupDigits (ds : List Char) : String :=
  String.mk (group3 ds.reverse).reverse

/-- Exactly-two-digit decimal rendering of `n % 100`. -/
def twoDigitStr (n : ℕ) : String :=
  String.mk [digitCh (n / 10 % 10), digitCh (n % 10)]

/-- Model of `n.toLocaleString('zh-CN', { minimumFractionDigits: 2,
maximumFractionDigits: 2 })`: sign, thousands-grouped integer digits, a dot,
and exactly two fraction digits (rounding half away from zero). -/
def localeFormat2 (q : JNum) : String :=
  let c := halfUpCents q.m.natAbs q.e
  (if q.m < 0 then "-" else "") ++
    groupDigits (natDigits (c / 100)) ++ "." ++ twoDigitStr (c % 100)

/-- Function `formatCurrency` from `route.ts` lines 9–14 (duplicated in
`next.config.ts` lines 63–68 and 312–317): `null`, `undefined` and the empty
string map to `"--"`; otherwise convert to a number, rendering `NaN` inputs
via `String(amount)` and numbers as `'¥' + toLocaleString(...)`. -/
def formatCurrency (amount : JsVal) : String :=
  if amount = .null ∨ amount = .undefined ∨ amount = .str "" then "--"
  else
    match jsNumber amount with
    | none => jsToString amount
    | some n => "¥" ++ localeFormat2 n

example : formatCurrency (.num ⟨12345, 1⟩) = "¥1,234.50" := by decide
example : formatCurrency (.num ⟨199999, 0⟩) = "¥199,999.00" := by decide
example : formatCurrency .null = "--" := by decide
example : formatCurrency (.str "") = "--" := by decide
example : formatCurrency (.str "abc") = "abc" := by decide
example : formatCurrency (.str "1234.5") = "¥1,234.50" := by decide
example : parseNumber "4.5" = some ⟨45, 1⟩ := by decide
example : parseNumber " 3 " = some ⟨3, 0⟩ := by decide
example : parseNumber "-3" = some ⟨-3, 0⟩ := by decide
example : jsTrim "  a b  " = "a b" := by decide
example : pick [.str "", .num ⟨7, 0⟩, .str "x"] = .num ⟨7, 0⟩ := by decide
example : numToString ⟨4500, 3⟩ = "4.5" := by decide
example : numToString ⟨-45, 1⟩ = "-4.5" := by decide
example : JNum.modNat ⟨45, 1⟩ 3 = ⟨15, 1⟩ := by decide
example : JNum.modNat ⟨-3, 0⟩ 2 = ⟨-1, 0⟩ := by decide

/-- The nested `materialConfig` object inside a parsed `skuDetail`
(`route.ts` lines 61–62 read `fullName` and `totalPrice` from it). -/
structure MaterialConfig where
  fullName : JsVal
  totalPrice : JsVal
deriving DecidableEq

/-- A configuration sub-object (the parsed form of `skuDetail`): the two
directly-read keys plus the optional nested `materialConfig`. -/
structure SkuObj where
  configurationFullName : JsVal
  configurationRetailPrice : JsVal
  materialConfig : Option MaterialConfig
deriving DecidableEq

/-- The empty object `{}` used as the parse-failure fallback. -/
def emptySku : SkuObj := ⟨.undefined, .undefined, none⟩

/-- The optional chain `sku?.materialConfig?.fullName`. -/
def SkuObj.matFullName (o : SkuObj) : JsVal :=
  match o.materialConfig with
  | none => .undefined
  | some mc => mc.fullName

/-- The optional chain `sku?.materialConfig?.totalPrice`. -/
def SkuObj.matTotalPrice (o : SkuObj) : JsVal :=
  match o.materialConfig with
  | none => .undefined
  | some mc => mc.totalPrice

/-- The raw `skuDetail` field: absent (`undefined`/`null`), a JSON-encoded
string, or a pre-parsed object. -/
inductive SkuRaw where
  | undefined : SkuRaw
  | null : SkuRaw
  | strv : String → SkuRaw
  | objv : SkuObj → SkuRaw

/-- The loosely-typed upstream order record, restricted to the keys the
normalizer reads (`route.ts` lines 42–64).  A missing key is `JsVal.undefined`,
since reading it through `data?.key` yields `undefined`. -/
structure RawOrderRecord where
  orderNo : JsVal := .undefined
  orderSn : JsVal := .undefined
  businessOrderNo : JsVal := .undefined
  businessOrderSn : JsVal := .undefined
  orderDate : JsVal := .undefined
  orderTime : JsVal := .undefined
  payDate : JsVal := .undefined
  payTime : JsVal := .undefined
  buyerName : JsVal := .undefined
  realName : JsVal := .undefined
  buyerTel : JsVal := .undefined
  mobile : JsVal := .undefined
  buyerIdNo : JsVal := .undefined
  idNo : JsVal := .undefined
  buyerProvinceName : JsVal := .undefined
  buyerCityName : JsVal := .undefined
  cityName : JsVal := .undefined
  dealerFullName : JsVal := .undefined
  dealerName : JsVal := .undefined
  storeName : JsVal := .undefined
  vehicleModel : JsVal := .undefined
  carSeriesName : JsVal := .undefined
  vehicleVersion : JsVal := .undefined
  carTypeName : JsVal := .undefined
  exteriorColor : JsVal := .undefined
  interiorColor : JsVal := .undefined
  colorName : JsVal := .undefined
  retailPrice : JsVal := .undefined
  price : JsVal := .undefined
  vehicleVin : JsVal := .undefined
  skuDetail : SkuRaw := .undefined

/-- The record with every key absent. -/
def emptyRecord : RawOrderRecord := {}

/-- The canonical summary produced by `buildOrderSummary` (`route.ts` lines
45–63).  Fields built by `pick` or `??` keep the loosely-typed `JsVal` they
receive; fields built by `formatCurrency` or the time formatter are strings. -/
structure OrderSummary where
  requestTime : String
  orderNo : JsVal
  businessOrderNo : JsVal
  orderDate : JsVal
  payDate : JsVal
  buyerName : JsVal
  buyerTel : JsVal
  buyerIdNo : JsVal
  cityName : JsVal
  dealerName : JsVal
  vehicleModel : JsVal
  vehicleVersion : JsVal
  colorName : JsVal
  retailPrice : String
  vehicleVin : JsVal
  configurationFullName : JsVal
  configurationRetailPrice : String
deriving DecidableEq

/-- Escape a character for a JSON string literal (the model escapes exactly
the two characters that cannot appear raw: `"` and `\`). -/
def escChar (c : Char) : List Char :=
  if c = '"' ∨ c = '\\' then ['\\', c] else [c]

/-- Escape a string for a JSON string literal. -/
def escString (s : String) : List Char :=
  (s.data.map escChar).flatten

/-- Body of a JSON string literal: consume characters (unescaping `\"` and
`\\`) up to the closing quote, returning the decoded characters and the
suffix after the quote. -/
def parseStrBody : List Char → Option (List Char × List Char)
  | [] => none
  | c :: rest =>
    if c = '"' then some ([], rest)
    else if c = '\\' then
      match rest with
      | [] => none
      | d :: rest2 =>
        if d = '"' ∨ d = '\\' then (parseStrBody rest2).map (fun p => (d :: p.1, p.2))
        else none
    else (parseStrBody rest).map (fun p => (c :: p.1, p.2))

/-- Parse one primitive JSON value (`null`, a string literal, or a signed
decimal number) from the start of a character list. -/
def parsePrim (cs : List Char) : Option (JsVal × List Char) :=
  match cs with
  | [] => none
  | c :: rest =>
    if c = 'n' then
      match rest with
      | 'u' :: 'l' :: 'l' :: rest2 => some (.null, rest2)
      | _ => none
    else if c = '"' then
      (parseStrBody rest).map (fun p => (.str (String.mk p.1), p.2))
    else if c = '-' then
      (parseNumAbs rest).map (fun p => (.num p.1.neg, p.2))
    else
      (parseNumAbs (c :: rest)).map (fun p => (.num p.1, p.2))

/-- Strip an expected literal character sequence from the front of a list. -/
def stripPre : List Char → List Char → Option (List Char)
  | [], cs => some cs
  | p :: ps, c :: cs => if c = p then stripPre ps cs else none
  | _ :: _, [] => none

/-- Serialize one primitive value as JSON.  `undefined` has no JSON form; it
serializes as `null`, which the consuming field reads (`pick`,
`formatCurrency` and truthiness treat the two identically). -/
def encPrim (v : JsVal) : List Char :=
  match v with
  | .undefined => "null".data
  | .null => "null".data
  | .str s => '"' :: escString s ++ ['"']
  | .num q => (if q.m < 0 then ['-'] else []) ++ (decCharsRaw q.m.natAbs q.e)

/-- The primitive value as it reads back from JSON: `undefined` becomes
`null`, everything else is unchanged. -/
def primOf (v : JsVal) : JsVal :=
  match v with
  | .undefined => .null
  | v => v

/-- JSON encoding of a configuration sub-object, in the canonical key order
(a model of `JSON.stringify` restricted to this object shape). -/
def encodeSku (o : SkuObj) : String :=
  let mc : List Char :=
    match o.materialConfig with
    | none => "null".data
    | some mcv =>
      "\x7b\"fullName\":".data ++ encPrim mcv.fullName ++
        ",\"totalPrice\":".data ++ encPrim mcv.totalPrice ++ "\x7d".data
  String.mk
    ("\x7b\"configurationFullName\":".data ++ encPrim o.configurationFullName ++
      ",\"configurationRetailPrice\":".data ++ encPrim o.configurationRetailPrice ++
      ",\"materialConfig\":".data ++ mc ++ "\x7d".data)

/-- The sub-object as it reads back from its JSON encoding. -/
def primOfSku (o : SkuObj) : SkuObj :=
  ⟨primOf o.configurationFullName, primOf o.configurationRetailPrice,
    o.materialConfig.map (fun mcv => ⟨primOf mcv.fullName, primOf mcv.totalPrice⟩)⟩

/-- Model of `JSON.parse` restricted to the canonical encoding of a
configuration sub-object (the only strings this program decodes): accepts
exactly `encodeSku`-shaped input and fails on everything else.  A failure is
what the source's `try { JSON.parse } catch` path converts to `{}`. -/
def parseSkuJson (s : String) : Option SkuObj := do
  let cs0 ← stripPre ("\x7b\"configurationFullName\":".data) s.data
  let (v1, cs1) ← parsePrim cs0
  let cs2 ← stripPre (",\"configurationRetailPrice\":".data) cs1
  let (v2, cs3) ← parsePrim cs2
  let cs4 ← stripPre (",\"materialConfig\":".data) cs3
  match cs4 with
  | 'n' :: 'u' :: 'l' :: 'l' :: cs5 =>
    if cs5 = "\x7d".data then some ⟨v1, v2, none⟩ else none
  | _ => do
    let cs5 ← stripPre ("\x7b\"fullName\":".data) cs4
    let (w1, cs6) ← parsePrim cs5
    let cs7 ← stripPre (",\"totalPrice\":".data) cs6
    let (w2, cs8) ← parsePrim cs7
    if cs8 = "\x7d\x7d".data then some ⟨v1, v2, some ⟨w1, w2⟩⟩ else none

/-- Line 44 of `route.ts`: a string `skuDetail` is parsed with a `{}`
fallback on failure, a falsy one (`undefined`/`null`) becomes `{}` via
`skuRaw || {}`, and an object is used as-is. -/
def resolveSku : SkuRaw → SkuObj
  | .undefined => emptySku
  | .null => emptySku
  | .strv s => (parseSkuJson s).getD emptySku
  | .objv o => o

/-- Function `buildOrderSummary` from `route.ts` lines 42–64.  The wall-clock read in
`requestTime` (`formatRequestTime()`) is passed in as `reqTime`. -/
def buildOrderSummary (reqTime : String) (data : RawOrderRecord) : OrderSummary :=
  let sku := resolveSku data.skuDetail
  { requestTime := reqTime
    orderNo := pick [data.orderNo, data.orderSn]
    businessOrderNo := pick [data.businessOrderNo, data.businessOrderSn]
    orderDate := pick [data.orderDate, data.orderTime]
    payDate := pick [data.payDate, data.payTime]
    buyerName := pick [data.buyerName, data.realName]
    buyerTel := pick [data.buyerTel, data.mobile]
    buyerIdNo := pick [data.buyerIdNo, data.idNo]
    cityName := pick [.str (jsTrim (jsOrElse data.buyerProvinceName "" ++ " " ++
      jsOrElse data.buyerCityName "")), data.cityName]
    dealerName := pick [data.dealerFullName, data.dealerName, data.storeName]
    vehicleModel := pick [data.vehicleModel, data.carSeriesName]
    vehicleVersion := pick [data.vehicleVersion, data.carTypeName]
    colorName := pick [.str (jsOrElse data.exteriorColor "--" ++ " / " ++
      jsOrElse data.interiorColor "--"), data.colorName]
    retailPrice := formatCurrency (pick [data.retailPrice, data.price])
    vehicleVin := jsNullish data.vehicleVin (.str "--")
    configurationFullName := pick [sku.configurationFullName, sku.matFullName]
    configurationRetailPrice :=
      formatCurrency (pick [sku.configurationRetailPrice, sku.matTotalPrice]) }

/-- The `hasVin` flag computed by the route's `GET` handler (`route.ts` line
75): `!!data?.vehicleVin`. -/
def routeHasVin (data : RawOrderRecord) : Bool :=
  jsTruthy data.vehicleVin

example :
    parseSkuJson (encodeSku ⟨.str "a\"b", .num ⟨1999, 2⟩, some ⟨.str "X", .undefined⟩⟩) =
      some ⟨.str "a\"b", .num ⟨1999, 2⟩, some ⟨.str "X", .null⟩⟩ := by decide
example : parseSkuJson "not json" = none := by decide
example :
    (buildOrderSummary "t" { emptyRecord with retailPrice := .num ⟨199999, 0⟩ }).retailPrice =
      "¥199,999.00" := by decide
example :
    (buildOrderSummary "t"
      { emptyRecord with
        buyerProvinceName := .str "浙江"
        cityName := .str "legacy" }).cityName = .str "浙江" := by decide
example :
    (buildOrderSummary "t" emptyRecord).colorName = .str "-- / --" := by decide

/-- Function `formatCurrency` from `page.tsx` lines 34–37, a distinct display-only
variant: its input is typed `number | null | undefined`, nullish maps to
`"--"`, and a number renders as the template `` `¥${amount}` `` — no
thousands grouping and no fixed fraction digits. -/
def pageFormatCurrency (amount : Option JNum) : String :=
  match amount with
  | none => "--"
  | some q => "¥" ++ numToString q

/-- Model of `Array.prototype.join(" ")`. -/
def joinSpace : List String → String
  | [] => ""
  | [s] => s
  | s :: rest => s ++ " " ++ joinSpace rest

/-- The province/city join from `page.tsx` lines 56–58:
`[data.buyerProvinceName, data.buyerCityName].filter(Boolean).join(" ")`.
The typed fields are `string | null`-like; absent is `none`. -/
def pageProvinceCity (prov city : Option String) : String :=
  joinSpace (([prov, city].filterMap id).filter (fun s => s ≠ ""))

/-- Model of `Intl.DateTimeFormat('zh-CN', { hour: '2-digit', hour12:
false, timeZone: 'Asia/Shanghai' }).format(now)` applied to the wall-clock
hour `hour`: the CLDR `zh` hour-only pattern is `HH时`, so the output is
the zero-padded two-digit hour followed by the 时 suffix (for example
`"09时"` at nine o'clock). -/
def formatHourZh (hour : ℕ) : String :=
  twoDigitStr hour ++ "时"

/-- Function `getBeijingHour` from `next.config.ts` lines 195–204:
`Number()` of the Intl-formatted Beijing hour.  Because the formatted
string carries the 时 suffix, the conversion yields `NaN` (`none`) for
every hour. -/
def getBeijingHour (hour : ℕ) : Option JNum :=
  parseNumber (formatHourZh hour)

/-- The JavaScript test `x % n === 0` on a possibly-`NaN` number (`none`
stands for `NaN`): the remainder of `NaN` is `NaN`, and `NaN === 0` is
false. -/
def optModEqZero (x : Option JNum) (n : ℕ) : Bool :=
  match x with
  | none => false
  | some q => decide (JNum.valEq (q.modNat n) ⟨0, 0⟩)

/-- Function `shouldSendSummaryByCycle` from `next.config.ts` lines 181–189
(the hourly, period-3 script): with a non-`NaN`, positive run number use
`runNum % 3 === 0`; otherwise test `getBeijingHour() % 3 === 0` — which,
the hour string being non-numeric, compares `NaN` and never holds.
`runStr` is the raw `GITHUB_RUN_NUMBER` environment value (`none` when
unset); the wall-clock Asia/Shanghai hour is the explicit `hour` argument. -/
def shouldSendSummaryByCycle (runStr : Option String) (hour : ℕ) : Bool :=
  let runNum : Option JNum :=
    match runStr with
    | none => none
    | some s => if s = "" then none else parseNumber s
  match runNum with
  | some q =>
    if q.isPos then decide (JNum.valEq (q.modNat 3) ⟨0, 0⟩)
    else optModEqZero (getBeijingHour hour) 3
  | none => optModEqZero (getBeijingHour hour) 3

/-- The per-run notification decision of the first (hourly, period-3)
script's `main` (`next.config.ts` lines 211–233), as a pure function: the
truthiness test on `vehicleVin` and the subject/send pair it produces.
`true` means the run sends a mail with the paired subject; the fetch, body
building and SMTP transport are external collaborators. -/
def decideSummaryV1 (vin : JsVal) (runStr : Option String) (hour : ℕ) :
    Bool × Option String :=
  if jsTruthy vin then (true, some ("VIN生成通知：" ++ jsToString vin))
  else if shouldSendSummaryByCycle runStr hour then
    (true, some "订单进度提醒：暂未生成VIN")
  else (false, none)

/-- The run counter of the second (3-hourly, period-2) script
(`next.config.ts` line 428): `Number(process.env.GITHUB_RUN_NUMBER || 0) || 0`. -/
def runNumberV2 (runStr : Option String) : JNum :=
  let base : JsVal :=
    match runStr with
    | none => .num ⟨0, 0⟩
    | some s => if s = "" then .num ⟨0, 0⟩ else .str s
  match jsNumber base with
  | none => ⟨0, 0⟩
  | some q => q

/-- The per-run notification decision of the second (3-hourly, period-2)
script's `main` (`next.config.ts` lines 427–450): same VIN rule, and an
unconditional `runNumber % 2 === 0` cadence — this script never reads the
clock. -/
def decideSummaryV2 (vin : JsVal) (runStr : Option String) :
    Bool × Option String :=
  if jsTruthy vin then (true, some ("VIN生成通知：" ++ jsToString vin))
  else if JNum.valEq ((runNumberV2 runStr).modNat 2) ⟨0, 0⟩ then
    (true, some "订单进度提醒：暂未生成VIN")
  else (false, none)

example : decideSummaryV1 (.str "LSJA1234567890") (some "4") 10 =
    (true, some "VIN生成通知：LSJA1234567890") := by decide
example : shouldSendSummaryByCycle (some "3") 10 = true := by decide
example : shouldSendSummaryByCycle (some "4") 9 = false := by decide
example : shouldSendSummaryByCycle none 9 = false := by decide
example : shouldSendSummaryByCycle none 10 = false := by decide
example : shouldSendSummaryByCycle (some "4.5") 9 = false := by decide
example : shouldSendSummaryByCycle (some "-3") 9 = false := by decide
example : shouldSendSummaryByCycle (some "0") 10 = false := by decide
example : formatHourZh 9 = "09时" := by decide
example : getBeijingHour 9 = none := by decide
example : decideSummaryV2 .undefined (some "abc") =
    (true, some "订单进度提醒：暂未生成VIN") := by decide
example : decideSummaryV2 .undefined (some "-3") = (false, none) := by decide
example : decideSummaryV2 .undefined none = (true, some "订单进度提醒：暂未生成VIN") := by decide
example : pageFormatCurrency (some ⟨12345, 1⟩) = "¥1234.5" := by decide
example : pageProvinceCity (some " ") none = " " := by decide

/-! ## Generic lemmas about the selection primitive `pick` -/

/-- A qualifying head candidate is returned verbatim. -/
theorem pick_cons_keep (v : JsVal) (l : List JsVal)
    (h : ¬(v = .null ∨ v = .undefined ∨ v = .str "")) : pick (v :: l) = v := by
  simp [pick, h]

/-- A disqualified head candidate is skipped. -/
theorem pick_cons_skip (v : JsVal) (l : List JsVal)
    (h : v = .null ∨ v = .undefined ∨ v = .str "") : pick (v :: l) = pick l := by
  simp [pick, h]

/-- When no candidate qualifies, `pick` returns the placeholder. -/
theorem pick_all_bad :
    ∀ l : List JsVal, (∀ v ∈ l, v = .null ∨ v = .undefined ∨ v = .str "") →
      pick l = .str "--"
  | [], _ => rfl
  | v :: l, h => by
    rw [pick_cons_skip v l (h v (by simp))]
    exact pick_all_bad l (fun w hw => h w (by simp [hw]))

/-- Lemma: `pick` is invariant under replacing the head by its JSON read-back
(`undefined ↦ null`): both are skipped, and any other value is unchanged. -/
theorem pick_cons_primOf (v : JsVal) (l : List JsVal) :
    pick (primOf v :: l) = pick (v :: l) := by
  cases v <;> simp [primOf, pick]

/-- Lemma: `pick` only looks at the tail when the head is disqualified. -/
theorem pick_cons_congr (v : JsVal) (l l' : List JsVal)
    (h : pick l = pick l') : pick (v :: l) = pick (v :: l') := by
  by_cases hv : v = .null ∨ v = .undefined ∨ v = .str ""
  · rw [pick_cons_skip v l hv, pick_cons_skip v l' hv, h]
  · rw [pick_cons_keep v l hv, pick_cons_keep v l' hv]

/-- A non-empty string (in particular any separator-bearing concatenation)
is a qualifying candidate. -/
theorem pick_cons_str_keep (s : String) (l : List JsVal) (h : s ≠ "") :
    pick (.str s :: l) = .str s := by
  apply pick_cons_keep
  simp [h]

/-- A string containing the three-character separator is never empty. -/
theorem sep_concat_ne_empty (a b : String) : a ++ " / " ++ b ≠ "" := by
  intro h
  have hd := congrArg String.data h
  simp [String.data_append] at hd

/-! ## C6, C1, C8, C9 -/

/-- C6.  For every candidate list, the selection primitive returns the
first candidate that is not `null`, not `undefined` and not the empty
string, verbatim and regardless of later candidates; skipped candidates do
not influence the result; and when no candidate qualifies it returns the
placeholder `"--"`. -/
theorem C6_pick_first_valid :
    (∀ (v : JsVal) (l : List JsVal),
      v ≠ .null → v ≠ .undefined → v ≠ .str "" → pick (v :: l) = v) ∧
    (∀ (v : JsVal) (l : List JsVal),
      v = .null ∨ v = .undefined ∨ v = .str "" → pick (v :: l) = pick l) ∧
    (∀ l : List JsVal, (∀ v ∈ l, v = .null ∨ v = .undefined ∨ v = .str "") →
      pick l = .str "--") :=
  ⟨fun v l h1 h2 h3 => pick_cons_keep v l (by simp [h1, h2, h3]),
   pick_cons_skip, pick_all_bad⟩

/-- Witness for C6 at concrete inputs. -/
theorem C6_pick_first_valid_witness :
    pick [.str "a", .null, .str "b"] = .str "a" ∧
    pick [.null, .num ⟨5, 0⟩] = pick [.num ⟨5, 0⟩] ∧
    pick [.null, .undefined, .str ""] = .str "--" :=
  ⟨C6_pick_first_valid.1 (.str "a") [.null, .str "b"]
      (by decide) (by decide) (by decide),
   C6_pick_first_valid.2.1 .null [.num ⟨5, 0⟩] (by decide),
   C6_pick_first_valid.2.2 [.null, .undefined, .str ""] (by decide)⟩

/-- C1.  In both scripts, a truthy VIN forces the decision to send with
subject `VIN生成通知：<vin>`; neither the run counter nor the clock is
consulted (the result is the same for every `runStr` and `hour`). -/
theorem C1_vin_always_sends (vin : JsVal) (runStr : Option String) (hour : ℕ)
    (h : jsTruthy vin = true) :
    decideSummaryV1 vin runStr hour =
      (true, some ("VIN生成通知：" ++ jsToString vin)) ∧
    decideSummaryV2 vin runStr =
      (true, some ("VIN生成通知：" ++ jsToString vin)) := by
  constructor <;> simp [decideSummaryV1, decideSummaryV2, h]

/-- Witness for C1 at a concrete VIN, counter and hour. -/
theorem C1_vin_always_sends_witness :
    decideSummaryV1 (.str "LSJA1234567890") (some "4") 10 =
      (true, some "VIN生成通知：LSJA1234567890") ∧
    decideSummaryV2 (.str "LSJA1234567890") (some "1") =
      (true, some "VIN生成通知：LSJA1234567890") :=
  ⟨(C1_vin_always_sends (.str "LSJA1234567890") (some "4") 10 (by decide)).1,
   (C1_vin_always_sends (.str "LSJA1234567890") (some "1") 10 (by decide)).2⟩

/-- C8.  The summary's color field is `pick` over the candidate list whose
first entry is the concatenation `"<exterior> / <interior>"` (each side
independently defaulting to `"--"` when falsy) and whose fallback entry is
the legacy combined `colorName`; since the concatenation always contains
`" / "` it always qualifies, so the color is always the concatenation. -/
theorem C8_color_concatenation (t : String) (r : RawOrderRecord) :
    (buildOrderSummary t r).colorName =
      pick [.str (jsOrElse r.exteriorColor "--" ++ " / " ++
        jsOrElse r.interiorColor "--"), r.colorName] ∧
    (buildOrderSummary t r).colorName =
      .str (jsOrElse r.exteriorColor "--" ++ " / " ++
        jsOrElse r.interiorColor "--") :=
  ⟨rfl, pick_cons_str_keep _ _ (sep_concat_ne_empty _ _)⟩

/-- C9.  An empty-string VIN survives the nullish-coalescing defaulting
verbatim (it is neither `null` nor `undefined`), so the summary's VIN field
is `""` — not the placeholder `"--"` — and the route's `hasVin` flag is
`false` because `""` is falsy. -/
theorem C9_empty_vin (t : String) (r : RawOrderRecord)
    (h : r.vehicleVin = .str "") :
    (buildOrderSummary t r).vehicleVin = .str "" ∧
    (JsVal.str "" ≠ JsVal.str "--") ∧
    routeHasVin r = false := by
  refine ⟨?_, by decide, ?_⟩
  · show jsNullish r.vehicleVin (.str "--") = .str ""
    rw [h]
    rfl
  · show jsTruthy r.vehicleVin = false
    rw [h]
    rfl

/-- Witness for C9 at a concrete record. -/
theorem C9_empty_vin_witness :
    (buildOrderSummary "t" { emptyRecord with vehicleVin := .str "" }).vehicleVin
      = .str "" ∧
    (JsVal.str "" ≠ JsVal.str "--") ∧
    routeHasVin { emptyRecord with vehicleVin := .str "" } = false :=
  C9_empty_vin "t" { emptyRecord with vehicleVin := .str "" } rfl

/-! ## C5: every summary field is defined (amended: string or number) -/

/-- Whether a value is a string. -/
def isStrVal : JsVal → Bool
  | .str _ => true
  | _ => false

/-- Whether a value is a string or a number (in particular neither `null`
nor `undefined`). -/
def strOrNum : JsVal → Bool
  | .str _ => true
  | .num _ => true
  | _ => false

/-- Lemma: `pick` always returns a string or a number: a returned candidate is by
construction not `null`/`undefined`, and the default is the string `"--"`. -/
theorem pick_strOrNum : ∀ l : List JsVal, strOrNum (pick l) = true
  | [] => rfl
  | v :: l => by
    by_cases h : v = .null ∨ v = .undefined ∨ v = .str ""
    · rw [pick_cons_skip v l h]
      exact pick_strOrNum l
    · rw [pick_cons_keep v l h]
      cases v with
      | null => exact absurd (Or.inl rfl) h
      | undefined => exact absurd (Or.inr (Or.inl rfl)) h
      | str s => rfl
      | num q => rfl

/-- Nullish-coalescing against the placeholder also yields a string or a
number. -/
theorem jsNullish_strOrNum (v : JsVal) :
    strOrNum (jsNullish v (.str "--")) = true := by
  cases v <;> simp [jsNullish, strOrNum]

/-- C5 (amended).  `buildOrderSummary` is a total function — the embedded
catch-free normalizer never throws — and every summary field holds a
concrete value: the `requestTime`, `retailPrice` and
`configurationRetailPrice` fields are strings by construction
(`formatCurrency` always returns a string), and each of the remaining
fields is a string or a number, never `null` and never `undefined`.
(The original claim's stronger reading — every field a *string* — fails:
see the counterexample, a numeric source field is passed through verbatim.) -/
theorem C5_fields_always_defined (t : String) (r : RawOrderRecord) :
    strOrNum (buildOrderSummary t r).orderNo = true ∧
    strOrNum (buildOrderSummary t r).businessOrderNo = true ∧
    strOrNum (buildOrderSummary t r).orderDate = true ∧
    strOrNum (buildOrderSummary t r).payDate = true ∧
    strOrNum (buildOrderSummary t r).buyerName = true ∧
    strOrNum (buildOrderSummary t r).buyerTel = true ∧
    strOrNum (buildOrderSummary t r).buyerIdNo = true ∧
    strOrNum (buildOrderSummary t r).cityName = true ∧
    strOrNum (buildOrderSummary t r).dealerName = true ∧
    strOrNum (buildOrderSummary t r).vehicleModel = true ∧
    strOrNum (buildOrderSummary t r).vehicleVersion = true ∧
    strOrNum (buildOrderSummary t r).colorName = true ∧
    strOrNum (buildOrderSummary t r).vehicleVin = true ∧
    strOrNum (buildOrderSummary t r).configurationFullName = true :=
  ⟨pick_strOrNum _, pick_strOrNum _, pick_strOrNum _, pick_strOrNum _,
   pick_strOrNum _, pick_strOrNum _, pick_strOrNum _, pick_strOrNum _,
   pick_strOrNum _, pick_strOrNum _, pick_strOrNum _, pick_strOrNum _,
   jsNullish_strOrNum _, pick_strOrNum _⟩

/-- C5 counterexample to the claim as stated: a numeric `orderNo` flows
through `pick` verbatim, so the summary field is a number, not a string. -/
theorem C5_counterexample :
    (buildOrderSummary "t"
      { emptyRecord with orderNo := .num ⟨123, 0⟩ }).orderNo = .num ⟨123, 0⟩ ∧
    isStrVal (buildOrderSummary "t"
      { emptyRecord with orderNo := .num ⟨123, 0⟩ }).orderNo = false := by
  constructor <;> decide

/-! ## C4: currency formatting -/

/-- C4 (amended).  The `formatCurrency` of the API route and of the two
scripts behaves exactly as claimed: nullish and empty-string input give
`"--"`; numeric input gives `'¥'` followed by a sign, thousands-grouped
integer digits, a dot and exactly two fraction digits (concretely
`1234.5 ↦ "¥1,234.50"`); and a non-empty string that does not parse as a
number passes through unchanged.  The distinct `formatCurrency` of
`page.tsx` (also cited by the claim) maps nullish input to `"--"` but
renders a number as `'¥'` followed by its plain decimal form, with no
grouping and no fixed fraction digits — the counterexample shows it
violates the claimed `"¥1,234.50"` shape. -/
theorem C4_formatCurrency :
    (formatCurrency .null = "--" ∧ formatCurrency .undefined = "--" ∧
      formatCurrency (.str "") = "--") ∧
    formatCurrency (.num ⟨12345, 1⟩) = "¥1,234.50" ∧
    (∀ q : JNum, ∃ (n : ℕ) (mid : String), n < 100 ∧
      formatCurrency (.num q) = "¥" ++ (mid ++ "." ++ twoDigitStr n) ∧
      (twoDigitStr n).length = 2) ∧
    (∀ s : String, s ≠ "" → parseNumber s = none →
      formatCurrency (.str s) = s) ∧
    (pageFormatCurrency none = "--" ∧
      ∀ q : JNum, pageFormatCurrency (some q) = "¥" ++ numToString q) := by
  refine ⟨⟨rfl, rfl, rfl⟩, by decide, ?_, ?_, rfl, fun q => rfl⟩
  · intro q
    exact ⟨halfUpCents q.m.natAbs q.e % 100,
      (if q.m < 0 then "-" else "") ++
        groupDigits (natDigits (halfUpCents q.m.natAbs q.e / 100)),
      Nat.mod_lt _ (by norm_num), rfl, rfl⟩
  · intro s hs hp
    simp [formatCurrency, hs, jsNumber, hp, jsToString]

/-- Witness for C4's conditional part at the concrete input `"abc"`. -/
theorem C4_formatCurrency_witness :
    formatCurrency (.str "abc") = "abc" :=
  C4_formatCurrency.2.2.2.1 "abc" (by decide) (by decide)

/-- C4 counterexample to the claim as stated, on the `page.tsx` variant it
cites: `formatCurrency(1234.5)` renders without grouping or fixed fraction
digits. -/
theorem C4_counterexample :
    pageFormatCurrency (some ⟨12345, 1⟩) = "¥1234.5" ∧
    ("¥1234.5" : String) ≠ "¥1,234.50" := by
  constructor <;> decide

/-! ## C2, C3: the cadence decision -/

/-- On a positive integral counter, the mantissa of the JavaScript remainder
`q % n` is the integer remainder scaled by the denominator. -/
theorem JNum.modNat_m (q : JNum) (n : ℕ) (hpos : q.isPos) (hint : q.isInt) :
    (q.modNat n).m = 10 ^ q.e * (q.toInt % n) := by
  obtain ⟨k, hk⟩ := hint
  have hd : (0 : ℤ) < 10 ^ q.e := pow_pos (by norm_num) _
  have htd : Int.tdiv q.m ((10 : ℤ) ^ q.e * n) = q.m / ((10 : ℤ) ^ q.e * n) :=
    Int.tdiv_eq_ediv (le_of_lt hpos) (by positivity)
  have hdiv : q.m / ((10 : ℤ) ^ q.e * n) = k / n := by
    rw [hk, Int.mul_ediv_mul_of_pos _ _ hd]
  have htoi : q.toInt = k := by
    show q.m / (10 ^ q.e) = k
    rw [hk, Int.mul_ediv_cancel_left _ (ne_of_gt hd)]
  show q.m - (n : ℤ) * Int.tdiv q.m ((10 : ℤ) ^ q.e * n) * 10 ^ q.e = _
  rw [htd, hdiv, htoi, Int.emod_def, hk]
  ring

/-- For a positive integral counter, the JavaScript test `q % n === 0`
agrees with the integer remainder test. -/
theorem JNum.modNat_valEq_zero_iff (q : JNum) (n : ℕ)
    (hpos : q.isPos) (hint : q.isInt) :
    JNum.valEq (q.modNat n) ⟨0, 0⟩ ↔ q.toInt % n = 0 := by
  have hd : (0 : ℤ) < 10 ^ q.e := pow_pos (by norm_num) _
  unfold JNum.valEq
  rw [JNum.modNat_m q n hpos hint]
  show 10 ^ q.e * (q.toInt % ↑n) * 10 ^ (0 : ℕ) = 0 * 10 ^ (q.modNat n).e ↔ _
  simp [ne_of_gt hd]

/-- The period-3 cycle check in the branch where the run number is present,
non-`NaN` and positive: the counter itself is used. -/
theorem cycle_counter_branch (s : String) (q : JNum) (hour : ℕ) (hs : s ≠ "")
    (hp : parseNumber s = some q) (hq : q.isPos) :
    shouldSendSummaryByCycle (some s) hour =
      decide (JNum.valEq (q.modNat 3) ⟨0, 0⟩) := by
  simp [shouldSendSummaryByCycle, hs, hp, hq]

/-- Two-digit strings with the 时 suffix are not numeric: `Number` yields
`NaN` on them. -/
theorem parseNumber_digits_shi (a b : ℕ) (ha : a < 10) (hb : b < 10) :
    parseNumber (String.mk [digitCh a, digitCh b, '时']) = none := by
  interval_cases a <;> interval_cases b <;> decide

/-- `getBeijingHour` is `NaN` at every hour: the zh-CN Intl output carries
the 时 suffix, which the `Number` conversion rejects. -/
theorem getBeijingHour_nan (hour : ℕ) : getBeijingHour hour = none :=
  parseNumber_digits_shi (hour / 10 % 10) (hour % 10)
    (Nat.mod_lt _ (by norm_num)) (Nat.mod_lt _ (by norm_num))

/-- The period-3 fallback branch never sends: the hour is read back as
`NaN` and `NaN % 3 === 0` is false.  Case: run number absent. -/
theorem cycle_fallback_none (hour : ℕ) :
    shouldSendSummaryByCycle none hour = false := by
  simp [shouldSendSummaryByCycle, getBeijingHour_nan, optModEqZero]

/-- The period-3 fallback (never sending, the hour being `NaN`) is taken
when the run number does not parse as a number. -/
theorem cycle_fallback_nan (s : String) (hour : ℕ) (hp : parseNumber s = none) :
    shouldSendSummaryByCycle (some s) hour = false := by
  by_cases hs : s = ""
  · subst hs
    exact absurd hp (by decide)
  · simp [shouldSendSummaryByCycle, hs, hp, getBeijingHour_nan, optModEqZero]

/-- The period-3 fallback (never sending, the hour being `NaN`) is taken
when the run number parses to a non-positive value, or is empty. -/
theorem cycle_fallback_nonpos (s : String) (q : JNum) (hour : ℕ)
    (hp : parseNumber s = some q) (hq : ¬q.isPos) :
    shouldSendSummaryByCycle (some s) hour = false := by
  by_cases hs : s = ""
  · subst hs
    simp [shouldSendSummaryByCycle, getBeijingHour_nan, optModEqZero]
  · simp [shouldSendSummaryByCycle, hs, hp, hq, getBeijingHour_nan, optModEqZero]

/-- Modelled from the claim's words (for comparison with the code): send
when a supplied counter is a positive integer and divisible by the period,
otherwise by the hour-of-day proxy. -/
def posIntCounter (runStr : Option String) : Option ℤ :=
  match runStr with
  | none => none
  | some s =>
    if s = "" then none
    else
      match parseNumber s with
      | none => none
      | some q => if q.isPos ∧ q.isInt then some q.toInt else none

/-- Modelled from the claim's words (for comparison with the code): the
claimed period-3 cadence decision. -/
def cadenceClaimSpec (runStr : Option String) (hour : ℕ) : Bool :=
  match posIntCounter runStr with
  | some k => decide (k % 3 = 0)
  | none => decide (hour % 3 = 0)

/-- C2 counterexample to the claim as stated, on both halves of its
dichotomy.  (1) With no counter at Beijing hour 9 the claim prescribes the
hour fallback `9 % 3 = 0`, hence send; the code's fallback instead compares
`Number("09时") = NaN` with `% 3 === 0` and does not send.  (2) The counter
`"4.5"` is supplied but not a positive integer, so the claim again
prescribes the hour fallback at hour 9; the code accepts any positive
non-`NaN` number and computes `4.5 % 3 = 1.5 ≠ 0` — no send. -/
theorem C2_counterexample :
    (cadenceClaimSpec none 9 = true ∧
      shouldSendSummaryByCycle none 9 = false) ∧
    (cadenceClaimSpec (some "4.5") 9 = true ∧
      shouldSendSummaryByCycle (some "4.5") 9 = false) := by
  exact ⟨⟨by decide, by decide⟩, ⟨by decide, by decide⟩⟩

/-- C2 (amended).  The period-3 cadence: a supplied counter that parses to
a positive **integer** `k` decides by `k % 3 = 0` (counter 3 sends, counter
4 does not); a supplied counter that parses to a positive **non-integral**
number is likewise used with the JavaScript remainder (never zero for
period 3), the clock not being consulted; and in every remaining case —
counter missing, empty, non-numeric, zero or negative — the code takes the
hour-fallback branch, but `getBeijingHour` is `Number` of the zh-CN hour
string `"HH时"`, i.e. `NaN`, so `NaN % 3 === 0` never holds and the
fallback never sends, at any hour. -/
theorem C2_cadence_policy :
    (∀ (s : String) (q : JNum) (hour : ℕ), s ≠ "" → parseNumber s = some q →
      q.isPos → q.isInt →
      shouldSendSummaryByCycle (some s) hour = decide (q.toInt % 3 = 0)) ∧
    (∀ (s : String) (q : JNum) (hour : ℕ), s ≠ "" → parseNumber s = some q →
      q.isPos → ¬q.isInt →
      shouldSendSummaryByCycle (some s) hour =
        decide (JNum.valEq (q.modNat 3) ⟨0, 0⟩)) ∧
    (∀ hour : ℕ, getBeijingHour hour = none) ∧
    (∀ hour : ℕ, shouldSendSummaryByCycle none hour = false) ∧
    (∀ (s : String) (hour : ℕ), parseNumber s = none →
      shouldSendSummaryByCycle (some s) hour = false) ∧
    (∀ (s : String) (q : JNum) (hour : ℕ), parseNumber s = some q → ¬q.isPos →
      shouldSendSummaryByCycle (some s) hour = false) ∧
    (shouldSendSummaryByCycle (some "3") 10 = true ∧
      shouldSendSummaryByCycle (some "4") 9 = false ∧
      shouldSendSummaryByCycle none 9 = false ∧
      shouldSendSummaryByCycle none 10 = false) := by
  refine ⟨?_, ?_, getBeijingHour_nan, cycle_fallback_none, cycle_fallback_nan,
    cycle_fallback_nonpos, by decide, by decide, by decide, by decide⟩
  · intro s q hour hs hp hqp hqi
    rw [cycle_counter_branch s q hour hs hp hqp]
    simp [JNum.modNat_valEq_zero_iff q 3 hqp hqi]
  · intro s q hour hs hp hqp _
    exact cycle_counter_branch s q hour hs hp hqp

/-- Witness for C2's conditional parts at concrete inputs. -/
theorem C2_cadence_policy_witness :
    shouldSendSummaryByCycle (some "3") 7 = true ∧
    shouldSendSummaryByCycle (some "4.5") 9 =
      decide (JNum.valEq ((JNum.mk 45 1).modNat 3) ⟨0, 0⟩) ∧
    shouldSendSummaryByCycle (some "abc") 9 = false ∧
    shouldSendSummaryByCycle (some "-3") 10 = false :=
  ⟨(C2_cadence_policy.1 "3" ⟨3, 0⟩ 7 (by decide) (by decide) (by decide)
      (by decide)).trans (by decide),
   C2_cadence_policy.2.1 "4.5" ⟨45, 1⟩ 9 (by decide) (by decide) (by decide)
      (by decide),
   C2_cadence_policy.2.2.2.2.1 "abc" 9 (by decide),
   C2_cadence_policy.2.2.2.2.2.1 "-3" ⟨-3, 0⟩ 10 (by decide) (by decide)⟩

/-- The period-2 script's run counter on non-numeric input: `Number(...)` is
`NaN`, and `NaN || 0` yields `0`. -/
theorem runNumberV2_nan (s : String) (hp : parseNumber s = none) :
    runNumberV2 (some s) = ⟨0, 0⟩ := by
  by_cases hs : s = ""
  · subst hs
    exact absurd hp (by decide)
  · simp [runNumberV2, hs, jsNumber, hp]

/-- The period-2 script's run counter on numeric input is the parsed value. -/
theorem runNumberV2_num (s : String) (q : JNum) (hs : s ≠ "")
    (hp : parseNumber s = some q) : runNumberV2 (some s) = q := by
  simp [runNumberV2, hs, jsNumber, hp]

/-- C3 counterexample to the claim as stated, in both configurations.
(1) Period 3: the malformed counter `"abc"` takes the fallback branch, but
since `getBeijingHour` is `Number("09时") = NaN`, the code does not send at
hour 9 although the claimed hour proxy (`9 % 3 = 0`) says to.  (2) Period
2: the script reads no clock at all; `"abc"` defaults the counter to `0`
and `0 % 2 = 0`, so it sends, although at hour 1 the claimed hour proxy
(`1 % 2 = 0`) says not to. -/
theorem C3_counterexample :
    (shouldSendSummaryByCycle (some "abc") 9 = false ∧
      decide ((9 : ℕ) % 3 = 0) = true) ∧
    (decideSummaryV2 .undefined (some "abc") =
      (true, some "订单进度提醒：暂未生成VIN") ∧
      decide ((1 : ℕ) % 2 = 0) = false) := by
  exact ⟨⟨by decide, by decide⟩, ⟨by decide, by decide⟩⟩

/-- C3 (amended).  Both decision functions are total Lean functions (the
embedded decision logic has no throwing path), but neither configuration
implements the claimed hour-of-day fallback.  In the period-3 script a
malformed cadence input — non-numeric, negative, or zero — does take the
fallback branch, yet `getBeijingHour` is `Number` of the zh-CN hour string
`"HH时"`, i.e. `NaN`, so `NaN % 3 === 0` is false and the fallback never
sends.  In the period-2 script there is no time-derived fallback at all: a
missing or non-numeric counter defaults to `0` (and `0 % 2 = 0`, so the
script sends), and a parsed counter — including zero and negatives — is
used with the JavaScript remainder, the clock never being consulted. -/
theorem C3_malformed_cadence :
    (∀ hour : ℕ, getBeijingHour hour = none) ∧
    (∀ (s : String) (hour : ℕ), parseNumber s = none →
      shouldSendSummaryByCycle (some s) hour = false) ∧
    (∀ (s : String) (q : JNum) (hour : ℕ), parseNumber s = some q → ¬q.isPos →
      shouldSendSummaryByCycle (some s) hour = false) ∧
    (∀ s : String, parseNumber s = none →
      decideSummaryV2 .undefined (some s) =
        (true, some "订单进度提醒：暂未生成VIN")) ∧
    (decideSummaryV2 .undefined none = (true, some "订单进度提醒：暂未生成VIN")) ∧
    (∀ (s : String) (q : JNum), s ≠ "" → parseNumber s = some q →
      (decideSummaryV2 .undefined (some s)).1 =
        decide (JNum.valEq (q.modNat 2) ⟨0, 0⟩)) := by
  refine ⟨getBeijingHour_nan, cycle_fallback_nan, cycle_fallback_nonpos, ?_,
    by decide, ?_⟩
  · intro s hp
    simp [decideSummaryV2, jsTruthy, runNumberV2_nan s hp]
    decide
  · intro s q hs hp
    simp [decideSummaryV2, jsTruthy, runNumberV2_num s q hs hp]
    by_cases hm : JNum.valEq (q.modNat 2) ⟨0, 0⟩ <;> simp [hm]

/-- Witness for C3's conditional parts at concrete inputs. -/
theorem C3_malformed_cadence_witness :
    shouldSendSummaryByCycle (some "xx") 10 = false ∧
    shouldSendSummaryByCycle (some "0") 9 = false ∧
    decideSummaryV2 .undefined (some "xx") =
      (true, some "订单进度提醒：暂未生成VIN") ∧
    (decideSummaryV2 .undefined (some "-3")).1 =
      decide (JNum.valEq ((JNum.mk (-3) 0).modNat 2) ⟨0, 0⟩) :=
  ⟨C3_malformed_cadence.2.1 "xx" 10 (by decide),
   C3_malformed_cadence.2.2.1 "0" ⟨0, 0⟩ 9 (by decide) (by decide),
   C3_malformed_cadence.2.2.2.1 "xx" (by decide),
   C3_malformed_cadence.2.2.2.2.2 "-3" ⟨-3, 0⟩ (by decide) (by decide)⟩

/-! ## C10: province/city normalization -/

/-- Trimming absorbs a trailing space. -/
theorem jsTrim_append_space (p : String) : jsTrim (p ++ " ") = jsTrim p := by
  have hd : (p ++ " ").data = p.data ++ [' '] := by
    rw [String.data_append]
  simp [jsTrim, hd, trimChars, List.reverse_append, isWs]

/-- Trimming the empty string gives the empty string. -/
theorem jsTrim_empty : jsTrim "" = "" := rfl

/-- C10 counterexample to the claim as stated: with the whitespace-only
(hence present and non-empty) province `" "` and an absent city, the
concatenation trims to `""`, which is disqualified, so the legacy combined
`cityName` **is** consulted and returned — not the trimmed province. -/
theorem C10_counterexample :
    (buildOrderSummary "t"
      { emptyRecord with
        buyerProvinceName := .str " "
        cityName := .str "X" }).cityName = .str "X" ∧
    (" " : String) ≠ "" ∧ jsTrim " " = "" := by
  refine ⟨?_, by decide, by decide⟩
  decide

/-- C10 (amended).  In the route/script normalizer: when the province field
is a string that is non-empty **after trimming** and the city field is
absent, the normalized city value is the trimmed province name alone, for
every value of the legacy combined `cityName` field (so the fallback is not
consulted); the fallback is reached exactly when the province/city
concatenation trims to empty.  The `page.tsx` variant (also cited) joins
the truthy parts verbatim without trimming and has no legacy fallback. -/
theorem C10_city_from_province (t : String) (r : RawOrderRecord) (p : String)
    (hprov : r.buyerProvinceName = .str p) (hp : jsTrim p ≠ "")
    (hcity : r.buyerCityName = .undefined) :
    (buildOrderSummary t r).cityName = .str (jsTrim p) ∧
    (∀ s : String, s ≠ "" → pageProvinceCity (some s) none = s) := by
  constructor
  · have hpne : p ≠ "" := by
      intro h
      exact hp (h ▸ jsTrim_empty)
    show pick [.str (jsTrim (jsOrElse r.buyerProvinceName "" ++ " " ++
      jsOrElse r.buyerCityName "")), r.cityName] = _
    rw [hprov, hcity]
    have h1 : jsOrElse (.str p) "" = p := by
      simp [jsOrElse, jsTruthy, hpne, jsToString]
    have h2 : jsOrElse .undefined "" = "" := rfl
    rw [h1, h2]
    have h3 : p ++ " " ++ "" = p ++ " " := by
      simp
    rw [h3, jsTrim_append_space]
    exact pick_cons_str_keep _ _ hp
  · intro s hs
    simp [pageProvinceCity, joinSpace, hs]

/-- Witness for C10 at concrete inputs. -/
theorem C10_city_from_province_witness :
    (buildOrderSummary "t"
      { emptyRecord with
        buyerProvinceName := .str "浙江"
        cityName := .str "legacy" }).cityName = .str (jsTrim "浙江") ∧
    pageProvinceCity (some "ZJ") none = "ZJ" :=
  ⟨(C10_city_from_province "t"
      { emptyRecord with
        buyerProvinceName := .str "浙江"
        cityName := .str "legacy" } "浙江" rfl (by decide) rfl).1,
   (C10_city_from_province "t"
      { emptyRecord with
        buyerProvinceName := .str "浙江"
        cityName := .str "legacy" } "浙江" rfl (by decide) rfl).2 "ZJ"
      (by decide)⟩

/-! ## C7: JSON round-trip for the configuration sub-object -/

/-- Digit characters are digits. -/
theorem digitCh_isDigit (n : ℕ) (h : n < 10) : isDigitCh (digitCh n) = true := by
  interval_cases n <;> decide

/-- Lemma: `digitVal` inverts `digitCh` below 10. -/
theorem digitVal_digitCh (n : ℕ) (h : n < 10) : digitVal (digitCh n) = n := by
  interval_cases n <;> decide

/-- A digit character is not one of the JSON structural characters. -/
theorem digit_not_special (c : Char) (h : isDigitCh c = true) :
    c ≠ 'n' ∧ c ≠ '"' ∧ c ≠ '-' := by
  refine ⟨?_, ?_, ?_⟩ <;> intro hc <;> subst hc <;> exact absurd h (by decide)

/-- Folding digits from an accumulator scales the accumulator by the length. -/
theorem foldl_digitsVal : ∀ (l : List Char) (acc : ℕ),
    l.foldl (fun a c => 10 * a + digitVal c) acc =
      acc * 10 ^ l.length + digitsVal l := by
  intro l
  induction l with
  | nil => intro acc; simp [digitsVal]
  | cons c t ih =>
    intro acc
    have h1 : (c :: t).foldl (fun a c => 10 * a + digitVal c) acc =
        t.foldl (fun a c => 10 * a + digitVal c) (10 * acc + digitVal c) := rfl
    have h2 : digitsVal (c :: t) = digitVal c * 10 ^ t.length + digitsVal t := by
      show t.foldl (fun a c => 10 * a + digitVal c) (10 * 0 + digitVal c) = _
      rw [ih]
      norm_num
    rw [h1, ih, h2, List.length_cons, pow_succ]
    ring

/-- Digit-list value of a concatenation. -/
theorem digitsVal_append (a b : List Char) :
    digitsVal (a ++ b) = digitsVal a * 10 ^ b.length + digitsVal b := by
  show (a ++ b).foldl _ 0 = _
  rw [List.foldl_append]
  exact foldl_digitsVal b (digitsVal a)

/-- Leading zero padding does not change the value. -/
theorem digitsVal_replicate_zero (k : ℕ) (l : List Char) :
    digitsVal (List.replicate k '0' ++ l) = digitsVal l := by
  rw [digitsVal_append]
  have hz : digitsVal (List.replicate k '0') = 0 := by
    induction k with
    | zero => rfl
    | succ n ih =>
      rw [List.replicate_succ]
      show List.foldl _ (10 * 0 + digitVal '0') _ = 0
      simpa [digitVal] using ih
  simp [hz]

/-- The fueled digit expansion is made of digits, evaluates back to its
input, and is non-empty, whenever the fuel dominates the input. -/
theorem natDigitsF_spec : ∀ (fuel n : ℕ), n < fuel →
    (∀ c ∈ natDigitsF fuel n, isDigitCh c = true) ∧
    digitsVal (natDigitsF fuel n) = n ∧ natDigitsF fuel n ≠ [] := by
  intro fuel
  induction fuel with
  | zero => intro n h; omega
  | succ f ih =>
    intro n h
    by_cases h10 : n < 10
    · simp only [natDigitsF, if_pos h10]
      refine ⟨?_, ?_, by simp⟩
      · intro c hc
        simp at hc
        subst hc
        exact digitCh_isDigit n h10
      · show [digitCh n].foldl _ 0 = n
        simp [digitVal_digitCh n h10]
    · have hrec : n / 10 < f := by omega
      obtain ⟨ihd, ihv, ihne⟩ := ih (n / 10) hrec
      simp only [natDigitsF, if_neg h10]
      refine ⟨?_, ?_, by simp⟩
      · intro c hc
        rcases List.mem_append.mp hc with h1 | h2
        · exact ihd c h1
        · simp at h2
          subst h2
          exact digitCh_isDigit _ (Nat.mod_lt n (by norm_num))
      · rw [digitsVal_append, ihv]
        have : digitsVal [digitCh (n % 10)] = n % 10 := by
          show [digitCh (n % 10)].foldl _ 0 = n % 10
          simp [digitVal_digitCh _ (Nat.mod_lt n (by norm_num))]
        rw [this]
        simp
        omega

/-- Lemma: `natDigits` produces digit characters. -/
theorem natDigits_digits (n : ℕ) : ∀ c ∈ natDigits n, isDigitCh c = true :=
  (natDigitsF_spec (n + 1) n (by omega)).1

/-- Lemma: `digitsVal` inverts `natDigits`. -/
theorem digitsVal_natDigits (n : ℕ) : digitsVal (natDigits n) = n :=
  (natDigitsF_spec (n + 1) n (by omega)).2.1

/-- Lemma: `natDigits` is never empty. -/
theorem natDigits_ne_nil (n : ℕ) : natDigits n ≠ [] :=
  (natDigitsF_spec (n + 1) n (by omega)).2.2

/-- Whether a character list does not start with a digit. -/
def nonDigitStart : List Char → Bool
  | [] => true
  | c :: _ => !isDigitCh c

/-- Lemma: `spanDigits` splits a digit prefix exactly at a non-digit boundary. -/
theorem spanDigits_append : ∀ (ds rest : List Char),
    (∀ c ∈ ds, isDigitCh c = true) → nonDigitStart rest = true →
    spanDigits (ds ++ rest) = (ds, rest) := by
  intro ds
  induction ds with
  | nil =>
    intro rest _ hr
    cases rest with
    | nil => rfl
    | cons c t =>
      have hc : isDigitCh c = false := by simpa [nonDigitStart] using hr
      simp [spanDigits, hc]
  | cons d ds ih =>
    intro rest hds hr
    have hd : isDigitCh d = true := hds d (by simp)
    simp [spanDigits, hd, ih rest (fun c hc => hds c (by simp [hc])) hr]

/-- The string-body parser inverts the escaping encoder, up to the closing
quote. -/
theorem parseStrBody_round : ∀ (l rest : List Char),
    parseStrBody ((l.map escChar).flatten ++ '"' :: rest) = some (l, rest) := by
  intro l
  induction l with
  | nil =>
    intro rest
    show parseStrBody ('"' :: rest) = some ([], rest)
    conv_lhs => rw [parseStrBody.eq_def]
    simp
  | cons c t ih =>
    intro rest
    by_cases hc : c = '"' ∨ c = '\\'
    · have hesc : escChar c = ['\\', c] := by simp [escChar, hc]
      simp only [List.map_cons, List.flatten_cons, hesc, List.cons_append,
        List.append_assoc]
      conv_lhs => rw [parseStrBody.eq_def]
      simp only [show ('\\' : Char) ≠ '"' by decide, if_neg, if_pos rfl, reduceIte]
      simp [hc, ih rest]
    · have hesc : escChar c = [c] := by simp [escChar, hc]
      push_neg at hc
      simp only [List.map_cons, List.flatten_cons, hesc, List.cons_append,
        List.append_assoc]
      conv_lhs => rw [parseStrBody.eq_def]
      simp only [if_neg hc.1, if_neg hc.2, List.nil_append]
      rw [ih rest]
      rfl

/-- The zero-padded digit expansion used by `decCharsRaw` is made of
digits, is long enough, and keeps the value. -/
theorem pad_facts (a e : ℕ) :
    (∀ c ∈ List.replicate (e + 1 - (natDigits a).length) '0' ++ natDigits a,
      isDigitCh c = true) ∧
    e + 1 ≤ (List.replicate (e + 1 - (natDigits a).length) '0' ++
      natDigits a).length ∧
    digitsVal (List.replicate (e + 1 - (natDigits a).length) '0' ++
      natDigits a) = a := by
  refine ⟨?_, ?_, (digitsVal_replicate_zero _ _).trans (digitsVal_natDigits a)⟩
  · intro c hc
    rcases List.mem_append.mp hc with h1 | h2
    · rw [List.eq_of_mem_replicate h1]
      decide
    · exact natDigits_digits a c h2
  · have h2 : 1 ≤ (natDigits a).length := by
      cases hnd : natDigits a with
      | nil => exact absurd hnd (natDigits_ne_nil a)
      | cons x xs => simp
    simp only [List.length_append, List.length_replicate]
    omega

/-- The unsigned-number parser inverts the dotted digit split of an
all-digit list. -/
theorem parseNumAbs_split (pad : List Char) (e : ℕ) (rest : List Char)
    (hdig : ∀ c ∈ pad, isDigitCh c = true) (hlen : e + 1 ≤ pad.length)
    (he : e ≠ 0) (hnd : nonDigitStart rest = true) :
    parseNumAbs ((pad.take (pad.length - e) ++ '.' ::
      pad.drop (pad.length - e)) ++ rest) =
      some (⟨(digitsVal pad : ℤ), e⟩, rest) := by
  have hiplen : (pad.take (pad.length - e)).length = pad.length - e := by
    rw [List.length_take]
    omega
  have hfplen : (pad.drop (pad.length - e)).length = e := by
    rw [List.length_drop]
    omega
  have hipne : pad.take (pad.length - e) ≠ [] := by
    intro h
    rw [h] at hiplen
    simp at hiplen
    omega
  have hassoc : (pad.take (pad.length - e) ++ '.' ::
      pad.drop (pad.length - e)) ++ rest =
      pad.take (pad.length - e) ++ '.' ::
        (pad.drop (pad.length - e) ++ rest) := by
    simp
  rw [hassoc]
  have hspan1 : spanDigits (pad.take (pad.length - e) ++ '.' ::
      (pad.drop (pad.length - e) ++ rest)) =
      (pad.take (pad.length - e), '.' :: (pad.drop (pad.length - e) ++ rest)) :=
    spanDigits_append _ _ (fun c hc => hdig c (List.take_subset _ _ hc)) rfl
  have hspan2 : spanDigits (pad.drop (pad.length - e) ++ rest) =
      (pad.drop (pad.length - e), rest) :=
    spanDigits_append _ _ (fun c hc => hdig c (List.drop_subset _ _ hc)) hnd
  have hfpne : pad.drop (pad.length - e) ≠ [] := by
    intro h
    rw [h] at hfplen
    simp at hfplen
    omega
  obtain ⟨i0, it, hi⟩ := List.exists_cons_of_ne_nil hipne
  obtain ⟨f0, ft, hf⟩ := List.exists_cons_of_ne_nil hfpne
  unfold parseNumAbs
  rw [hspan1, hi]
  dsimp only
  split
  next rest2 heq =>
    obtain rfl : List.drop (pad.length - e) pad ++ rest = rest2 :=
      List.cons_injective.eq_iff.mp heq
    rw [hspan2, hf]
    dsimp only
    rw [← hf, ← hi, List.take_append_drop, hfplen]
  next hne =>
    exact absurd rfl (hne (List.drop (pad.length - e) pad ++ rest))

/-- The unsigned-number parser inverts the raw decimal printer on
non-negative mantissas, as long as the remainder starts with a separator. -/
theorem parseNumAbs_decCharsRaw (a e : ℕ) (rest : List Char)
    (hnd : nonDigitStart rest = true) (hdot : ∀ t, rest ≠ '.' :: t) :
    parseNumAbs (decCharsRaw (a : ℤ) e ++ rest) =
      some (⟨(a : ℤ), e⟩, rest) := by
  have hsign : ¬((a : ℤ) < 0) := by omega
  have hAbs : ((a : ℤ)).natAbs = a := rfl
  by_cases he : e = 0
  · subst he
    simp only [decCharsRaw, eq_self_iff_true, if_true, if_neg hsign, hAbs,
      List.nil_append]
    have hspan := spanDigits_append (natDigits a) rest (natDigits_digits a) hnd
    obtain ⟨c0, t0, h0⟩ := List.exists_cons_of_ne_nil (natDigits_ne_nil a)
    unfold parseNumAbs
    rw [hspan, h0]
    dsimp only
    split
    · exact absurd rfl (hdot _)
    · rw [← h0, digitsVal_natDigits]
  · simp only [decCharsRaw, if_neg he, if_neg hsign, hAbs, List.nil_append]
    obtain ⟨hpdig, hplen, hpval⟩ := pad_facts a e
    rw [parseNumAbs_split _ e rest hpdig hplen he hnd, hpval]

/-- Whether a character list starts with a JSON member/object separator. -/
def sepStart : List Char → Bool
  | c :: _ => c = ',' ∨ c = '}'
  | [] => false

/-- A separator-headed list does not start with a digit. -/
theorem sepStart_nonDigit (l : List Char) (h : sepStart l = true) :
    nonDigitStart l = true := by
  cases l with
  | nil => rfl
  | cons c t =>
    have hc : c = ',' ∨ c = '}' := by simpa [sepStart] using h
    rcases hc with hc | hc <;> subst hc <;> rfl

/-- A separator-headed list does not start with a dot. -/
theorem sepStart_not_dot (l : List Char) (h : sepStart l = true) :
    ∀ t, l ≠ '.' :: t := by
  intro t ht
  subst ht
  simp [sepStart] at h

/-- The raw decimal printer emits a digit first on non-negative mantissas. -/
theorem decCharsRaw_head (a e : ℕ) :
    ∃ (c : Char) (t : List Char),
      decCharsRaw (a : ℤ) e = c :: t ∧ isDigitCh c = true := by
  have hsign : ¬((a : ℤ) < 0) := by omega
  have hAbs : ((a : ℤ)).natAbs = a := rfl
  by_cases he : e = 0
  · subst he
    simp only [decCharsRaw, eq_self_iff_true, if_true, if_neg hsign, hAbs,
      List.nil_append]
    obtain ⟨c0, t0, h0⟩ := List.exists_cons_of_ne_nil (natDigits_ne_nil a)
    exact ⟨c0, t0, h0, natDigits_digits a c0 (h0 ▸ List.mem_cons_self c0 t0)⟩
  · simp only [decCharsRaw, if_neg he, if_neg hsign, hAbs, List.nil_append]
    obtain ⟨hpdig, hplen, _⟩ := pad_facts a e
    set pad := List.replicate (e + 1 - (natDigits a).length) '0' ++ natDigits a
      with hpad
    have hipne : pad.take (pad.length - e) ≠ [] := by
      intro h
      have := congrArg List.length h
      rw [List.length_take] at this
      simp at this
      omega
    obtain ⟨c0, t0, h0⟩ := List.exists_cons_of_ne_nil hipne
    refine ⟨c0, t0 ++ '.' :: pad.drop (pad.length - e), by rw [h0]; simp, ?_⟩
    exact hpdig c0 (List.take_subset _ _ (h0 ▸ List.mem_cons_self c0 t0))

/-- Stripping an expected prefix succeeds exactly on that prefix. -/
theorem stripPre_self : ∀ (p rest : List Char), stripPre p (p ++ rest) = some rest := by
  intro p
  induction p with
  | nil => intro rest; rfl
  | cons c t ih => intro rest; simp [stripPre, ih]

/-- The primitive-value parser inverts the primitive-value printer, reading
`undefined` back as `null`, whenever the remainder starts with a separator. -/
theorem parsePrim_enc (v : JsVal) (rest : List Char) (h : sepStart rest = true) :
    parsePrim (encPrim v ++ rest) = some (primOf v, rest) := by
  cases v with
  | undefined => simp [encPrim, parsePrim, primOf]
  | null => simp [encPrim, parsePrim, primOf]
  | str s =>
    show parsePrim ('"' :: (escString s ++ ['"']) ++ rest) = some (.str s, rest)
    have hassoc : ('"' :: (escString s ++ ['"'])) ++ rest =
        '"' :: (escString s ++ '"' :: rest) := by
      simp
    rw [hassoc]
    conv_lhs => rw [parsePrim.eq_def]
    simp only [show ('"' : Char) ≠ 'n' by decide, if_neg, reduceIte,
      eq_self_iff_true, if_true]
    rw [show escString s = ((s.data.map escChar).flatten) from rfl,
      parseStrBody_round s.data rest]
    rfl
  | num q =>
    by_cases hm : q.m < 0
    · have henc : encPrim (.num q) ++ rest =
          '-' :: (decCharsRaw (q.m.natAbs : ℤ) q.e ++ rest) := by
        simp [encPrim, hm]
      rw [henc]
      conv_lhs => rw [parsePrim.eq_def]
      simp only [show ('-' : Char) ≠ 'n' by decide,
        show ('-' : Char) ≠ '"' by decide, if_neg, reduceIte,
        eq_self_iff_true, if_true]
      rw [parseNumAbs_decCharsRaw q.m.natAbs q.e rest (sepStart_nonDigit rest h)
        (sepStart_not_dot rest h)]
      have h1 : -((q.m.natAbs : ℤ)) = q.m := by omega
      show some (JsVal.num ⟨-((q.m.natAbs : ℤ)), q.e⟩, rest) =
        some (JsVal.num q, rest)
      rw [h1]
    · have henc : encPrim (.num q) ++ rest =
          decCharsRaw (q.m.natAbs : ℤ) q.e ++ rest := by
        simp [encPrim, hm]
      rw [henc]
      obtain ⟨c0, t0, h0, hdig⟩ := decCharsRaw_head q.m.natAbs q.e
      obtain ⟨hn1, hn2, hn3⟩ := digit_not_special c0 hdig
      rw [h0]
      show parsePrim (c0 :: (t0 ++ rest)) = _
      conv_lhs => rw [parsePrim.eq_def]
      simp only [if_neg hn1, if_neg hn2, if_neg hn3]
      rw [show c0 :: (t0 ++ rest) = (c0 :: t0) ++ rest from rfl, ← h0]
      rw [parseNumAbs_decCharsRaw q.m.natAbs q.e rest (sepStart_nonDigit rest h)
        (sepStart_not_dot rest h)]
      have hq : ((q.m.natAbs : ℤ)) = q.m := by omega
      show some (JsVal.num ⟨(q.m.natAbs : ℤ), q.e⟩, rest) =
        some (JsVal.num q, rest)
      rw [hq]

/-- The canonical-form JSON parser inverts the sub-object encoder, reading
each `undefined` back as `null`. -/
theorem parseSkuJson_encodeSku (o : SkuObj) :
    parseSkuJson (encodeSku o) = some (primOfSku o) := by
  obtain ⟨v1, v2, mc⟩ := o
  have hsepc : ∀ l : List Char, sepStart (',' :: l) = true := fun l => rfl
  have hsepb : ∀ l : List Char, sepStart ('}' :: l) = true := fun l => rfl
  cases mc with
  | none =>
    simp only [encodeSku, parseSkuJson, primOfSku, Option.map_none']
    simp only [List.cons_append, List.append_assoc, List.nil_append]
    simp [stripPre, parsePrim_enc, hsepc, hsepb, Option.some_bind]
  | some mcv =>
    simp only [encodeSku, parseSkuJson, primOfSku, Option.map_some']
    simp only [List.cons_append, List.append_assoc, List.nil_append]
    simp [stripPre, parsePrim_enc, hsepc, hsepb, Option.some_bind]

/-- Resolving a JSON-encoded sub-object yields the object with `undefined`
slots read back as `null`. -/
theorem resolveSku_encode (o : SkuObj) :
    resolveSku (.strv (encodeSku o)) = primOfSku o := by
  simp [resolveSku, parseSkuJson_encodeSku o]

/-- Lemma: `pick` over the two configuration candidates is invariant under the
JSON read-back of the sub-object. -/
theorem pick_primOfSku_fullName (o : SkuObj) :
    pick [(primOfSku o).configurationFullName, (primOfSku o).matFullName] =
      pick [o.configurationFullName, o.matFullName] := by
  obtain ⟨v1, v2, mc⟩ := o
  cases mc with
  | none =>
    simp only [primOfSku, SkuObj.matFullName, Option.map_none']
    exact pick_cons_primOf v1 [.undefined]
  | some mcv =>
    simp only [primOfSku, SkuObj.matFullName, Option.map_some']
    exact (pick_cons_primOf v1 [primOf mcv.fullName]).trans
      (pick_cons_congr v1 _ _ (pick_cons_primOf mcv.fullName []))

/-- Same invariance for the price candidates. -/
theorem pick_primOfSku_price (o : SkuObj) :
    pick [(primOfSku o).configurationRetailPrice, (primOfSku o).matTotalPrice] =
      pick [o.configurationRetailPrice, o.matTotalPrice] := by
  obtain ⟨v1, v2, mc⟩ := o
  cases mc with
  | none =>
    simp only [primOfSku, SkuObj.matTotalPrice, Option.map_none']
    exact pick_cons_primOf v2 [.undefined]
  | some mcv =>
    simp only [primOfSku, SkuObj.matTotalPrice, Option.map_some']
    exact (pick_cons_primOf v2 [primOf mcv.totalPrice]).trans
      (pick_cons_congr v2 _ _ (pick_cons_primOf mcv.totalPrice []))

/-- C7.  Supplying a configuration sub-object to the normalizer as its
JSON-encoded string yields the same extracted configuration name and
configuration price as supplying the same object pre-parsed, for every
base record and request time; and a string the parser rejects is resolved
to the empty object (the embedded `try { JSON.parse } catch { {} }` never
throws — the model is total). -/
theorem C7_sku_json_roundtrip :
    (∀ (t : String) (r : RawOrderRecord) (o : SkuObj),
      (buildOrderSummary t
        { r with skuDetail := .strv (encodeSku o) }).configurationFullName =
      (buildOrderSummary t
        { r with skuDetail := .objv o }).configurationFullName ∧
      (buildOrderSummary t
        { r with skuDetail := .strv (encodeSku o) }).configurationRetailPrice =
      (buildOrderSummary t
        { r with skuDetail := .objv o }).configurationRetailPrice) ∧
    (∀ s : String, parseSkuJson s = none → resolveSku (.strv s) = emptySku) := by
  constructor
  · intro t r o
    constructor
    · show pick [(resolveSku (.strv (encodeSku o))).configurationFullName,
        (resolveSku (.strv (encodeSku o))).matFullName] =
        pick [(resolveSku (.objv o)).configurationFullName,
          (resolveSku (.objv o)).matFullName]
      rw [resolveSku_encode o]
      exact pick_primOfSku_fullName o
    · show formatCurrency (pick [(resolveSku (.strv (encodeSku o))).configurationRetailPrice,
        (resolveSku (.strv (encodeSku o))).matTotalPrice]) =
        formatCurrency (pick [(resolveSku (.objv o)).configurationRetailPrice,
          (resolveSku (.objv o)).matTotalPrice])
      rw [resolveSku_encode o]
      exact congrArg formatCurrency (pick_primOfSku_price o)
  · intro s h
    simp [resolveSku, h]

/-- A concrete configuration sub-object used by the C7 witness. -/
def sampleSku : SkuObj :=
  ⟨.str "豪华版", .num ⟨19999900, 2⟩, some ⟨.str "豪华 full", .num ⟨5, 0⟩⟩⟩

/-- Witness for C7 at a concrete sub-object and a concrete rejected string. -/
theorem C7_sku_json_roundtrip_witness :
    (buildOrderSummary "t"
      { emptyRecord with
        skuDetail := .strv (encodeSku sampleSku) }).configurationFullName =
    (buildOrderSummary "t"
      { emptyRecord with skuDetail := .objv sampleSku }).configurationFullName ∧
    resolveSku (.strv "not json") = emptySku :=
  ⟨(C7_sku_json_roundtrip.1 "t" emptyRecord sampleSku).1,
   C7_sku_json_roundtrip.2 "not json" (by decide)⟩
